import Mathlib

/-!
Shallow embedding of `heat/core/linalg/solver.py` (`cg`, `lanczos`) and of the
dataset-length validation in `heat/utils/data/partial_dataset.py`
(`PartialH5Dataset.__init__`).

Arithmetic is modelled exactly over `ℚ`.  Vectors are `List ℚ`, matrices are
`List (List ℚ)` (lists of rows).  The distributed primitives `ht.matmul`,
`ht.dot` and `ht.norm` are not part of the sources under verification; they are
modelled from the spec (§4.2, §6: ordinary dense matrix-vector product, dot
product, Euclidean norm).  `ht.norm`/`ht.sqrt` are kept abstract where only
monotone facts matter: `sqrt (r·r) < 1e-10` is equivalent to `r·r < 1e-20`
because `r·r ≥ 0` and square root is strictly monotone on nonnegatives.
-/

namespace HeatSolver

/-- Modelled from the spec: the dot-product primitive (`ht.matmul` on two 1-D
operands / `ht.dot`), §6 "Local dense operations: ... dot product". -/
def dotQ (v w : List ℚ) : ℚ := (List.zipWith (fun a b => a * b) v w).sum

/-- Modelled from the spec: `ht.matmul` with a 2-D left operand and 1-D right
operand (matrix-vector product), §4.2. -/
def matVec (A : List (List ℚ)) (v : List ℚ) : List ℚ :=
  A.map (fun row => dotQ row v)

/-- Elementwise vector addition (`+` on 1-D arrays). -/
def vadd (v w : List ℚ) : List ℚ := List.zipWith (fun a b => a + b) v w

/-- Elementwise vector subtraction (`-` on 1-D arrays). -/
def vsub (v w : List ℚ) : List ℚ := List.zipWith (fun a b => a - b) v w

/-- Scalar times vector (`alpha * p` on a 1-D array). -/
def smul (c : ℚ) (v : List ℚ) : List ℚ := v.map (fun a => c * a)

/-- Vector divided elementwise by a scalar (`v / ht.norm(v)`). -/
def vdiv (v : List ℚ) (c : ℚ) : List ℚ := v.map (fun a => a / c)

/-- The squared CG tolerance: the source compares `ht.sqrt(rsnew).item() < 1e-10`;
since `rsnew = r·r ≥ 0` this is equivalent to `rsnew < 1e-20`. -/
def cgTolSq : ℚ := 1 / 10 ^ 20

/-- Instrumented state of the CG loop in `cg` (solver.py lines 42-65).
`x`, `r`, `p`, `rsold` are the program variables of the same names
(`rsold` holds `rsnew` at loop exit); `iters` counts completed loop passes
and `converged` records whether the early-return tolerance branch was taken
(pure instrumentation, no effect on the computation). -/
structure CGState where
  x : List ℚ
  r : List ℚ
  p : List ℚ
  rsold : ℚ
  iters : ℕ
  converged : Bool
  deriving Repr, DecidableEq

/-- One pass of the loop body of `cg` (solver.py lines 48-60): compute
`Ap = A·p`, `alpha = rsold / (p·Ap)`, update `x` and `r`, compute
`rsnew = r·r`; if `rsnew` is below the squared tolerance mark the state
converged (leaving `p` untouched, as the early return does), otherwise update
`p = r + (rsnew/rsold)·p` and set `rsold = rsnew`. -/
def cgIter (A : List (List ℚ)) (st : CGState) : CGState :=
  let Ap := matVec A st.p
  let alpha := st.rsold / dotQ st.p Ap
  let x := vadd st.x (smul alpha st.p)
  let r := vsub st.r (smul alpha Ap)
  let rsnew := dotQ r r
  if rsnew < cgTolSq then
    { x := x, r := r, p := st.p, rsold := rsnew,
      iters := st.iters + 1, converged := true }
  else
    { x := x, r := r, p := vadd r (smul (rsnew / st.rsold) st.p),
      rsold := rsnew, iters := st.iters + 1, converged := false }

/-- The loop `for i in range(len(b))` of `cg` (solver.py lines 47-60), with the
iteration budget as fuel; a converged pass exits the loop (the early return). -/
def cgLoop (A : List (List ℚ)) : ℕ → CGState → CGState
  | 0, st => st
  | fuel + 1, st =>
    let st1 := cgIter A st
    if st1.converged then st1 else cgLoop A fuel st1

/-- The body of `cg` after argument validation (solver.py lines 42-65):
`r = b - A·x0`, `p = r`, `rsold = r·r`, then the loop with budget `len(b)`. -/
def cgRun (A : List (List ℚ)) (b x0 : List ℚ) : CGState :=
  let r := vsub b (matVec A x0)
  cgLoop A b.length
    { x := x0, r := r, p := r, rsold := dotQ r r, iters := 0, converged := false }

/-- `cg(A, b, x0)`: the returned iterate. -/
def cg (A : List (List ℚ)) (b x0 : List ℚ) : List ℚ := (cgRun A b x0).x

theorem cgIter_iters (A : List (List ℚ)) (st : CGState) :
    (cgIter A st).iters = st.iters + 1 := by
  simp only [cgIter]
  split <;> rfl

theorem cgIter_rsold (A : List (List ℚ)) (st : CGState) :
    (cgIter A st).converged = true → (cgIter A st).rsold < cgTolSq := by
  simp only [cgIter]
  split
  · intro _
    assumption
  · intro hc
    exact absurd hc (by simp)

theorem cgLoop_spec (A : List (List ℚ)) :
    ∀ (fuel : ℕ) (st : CGState),
      (cgLoop A fuel st).iters ≤ st.iters + fuel ∧
      ((cgLoop A fuel st).converged = true →
        (cgLoop A fuel st).rsold < cgTolSq ∨ st.converged = true) ∧
      ((cgLoop A fuel st).converged = false →
        (cgLoop A fuel st).iters = st.iters + fuel ∨ st.converged = true) := by
  intro fuel
  induction fuel with
  | zero =>
    intro st
    refine ⟨Nat.le_refl _, fun hc => Or.inr ?_, fun _ => Or.inl rfl⟩
    simpa [cgLoop] using hc
  | succ n ih =>
    intro st
    rw [cgLoop]
    by_cases hc : (cgIter A st).converged = true
    · rw [if_pos hc]
      refine ⟨?_, fun _ => Or.inl (cgIter_rsold A st hc),
        fun hf => absurd (hc.symm.trans hf) (by simp)⟩
      rw [cgIter_iters]
      omega
    · rw [Bool.not_eq_true] at hc
      rw [if_neg (by rw [hc]; exact Bool.false_ne_true)]
      obtain ⟨h1, h2, h3⟩ := ih (cgIter A st)
      refine ⟨?_, fun hcv => ?_, fun hf => ?_⟩
      · rw [cgIter_iters] at h1
        omega
      · rcases h2 hcv with h | h
        · exact Or.inl h
        · exact absurd h (by rw [hc]; exact Bool.false_ne_true)
      · rcases h3 hf with h | h
        · rw [cgIter_iters] at h
          omega
        · exact absurd h (by rw [hc]; exact Bool.false_ne_true)

/-- C1: `cg(A, b, x0)` performs at most `len(b)` loop iterations; when the
early-termination branch is taken the exit residual satisfies the tolerance
(the `rsold` field holds `rsnew = r·r < (1e-10)²` at exit); when the loop
exhausts its budget exactly `len(b)` iterations ran and the last computed `x`
is returned (the embedding returns a value in every case — there is no error
path after argument validation). -/
theorem cg_iteration_bound (A : List (List ℚ)) (b x0 : List ℚ) :
    (cgRun A b x0).iters ≤ b.length ∧
    ((cgRun A b x0).converged = true → (cgRun A b x0).rsold < cgTolSq) ∧
    ((cgRun A b x0).converged = false → (cgRun A b x0).iters = b.length) ∧
    cg A b x0 = (cgRun A b x0).x := by
  obtain ⟨h1, h2, h3⟩ := cgLoop_spec A b.length
    { x := x0, r := vsub b (matVec A x0), p := vsub b (matVec A x0),
      rsold := dotQ (vsub b (matVec A x0)) (vsub b (matVec A x0)),
      iters := 0, converged := false }
  refine ⟨by simpa [cgRun] using h1, fun hc => ?_, fun hf => ?_, rfl⟩
  · rcases h2 (by simpa [cgRun] using hc) with h | h
    · simpa [cgRun] using h
    · exact absurd h (by simp)
  · rcases h3 (by simpa [cgRun] using hf) with h | h
    · simpa [cgRun] using h
    · exact absurd h (by simp)

/-- Witness for C1, instantiated at the identity-matrix scenario. -/
theorem cg_iteration_bound_witness :
    (cgRun [[1, 0], [0, 1]] [1, 2] [0, 0]).iters ≤ ([(1 : ℚ), 2]).length ∧
    ((cgRun [[1, 0], [0, 1]] [1, 2] [0, 0]).converged = true →
      (cgRun [[1, 0], [0, 1]] [1, 2] [0, 0]).rsold < cgTolSq) ∧
    ((cgRun [[1, 0], [0, 1]] [1, 2] [0, 0]).converged = false →
      (cgRun [[1, 0], [0, 1]] [1, 2] [0, 0]).iters = ([(1 : ℚ), 2]).length) ∧
    cg [[1, 0], [0, 1]] [1, 2] [0, 0] = (cgRun [[1, 0], [0, 1]] [1, 2] [0, 0]).x :=
  cg_iteration_bound [[1, 0], [0, 1]] [1, 2] [0, 0]

/-- The 5×5 identity matrix of the C2 scenario. -/
def id5 : List (List ℚ) :=
  [[1, 0, 0, 0, 0], [0, 1, 0, 0, 0], [0, 0, 1, 0, 0], [0, 0, 0, 1, 0], [0, 0, 0, 0, 1]]

/-- C2: with `A = I(5)`, `b = [1,2,3,4,5]`, `x0 = 0`, `cg` converges in exactly
one iteration (the residual after the first update is exactly zero, so the
tolerance check passes on the first pass) and returns `x = b`.  All the
arithmetic in this scenario is exact, so the `ℚ` model coincides with the
floating-point run. -/
theorem cg_identity_one_iteration :
    (cgRun id5 [1, 2, 3, 4, 5] [0, 0, 0, 0, 0]).iters = 1 ∧
    (cgRun id5 [1, 2, 3, 4, 5] [0, 0, 0, 0, 0]).converged = true ∧
    (cgRun id5 [1, 2, 3, 4, 5] [0, 0, 0, 0, 0]).rsold = 0 ∧
    cg id5 [1, 2, 3, 4, 5] [0, 0, 0, 0, 0] = [1, 2, 3, 4, 5] := by
  norm_num [cg, cgRun, cgLoop, cgIter, dotQ, matVec, vadd, vsub, smul, id5, cgTolSq]

/-! ### Lanczos (solver.py lines 68-185)

The tridiagonal matrix `T` is modelled as a total table `ℕ → ℕ → ℚ`
(zero outside the written `m × m` region, exactly like `ht.zeros((m, m))`),
the basis `V` as a column table `ℕ → List ℚ` (every column of `ht.ones((n, m))`
starts as a vector of ones).  `ht.norm(v)` is `s (v·v)` for an abstract
square-root stand-in `s`, and `rand` is an oracle supplying the random vector
drawn by `ht.random.rand(n, ...)` at iteration `i` (index 0 for the starting
vector when `v0` is omitted). -/

/-- Point update of the coefficient table (`T[r, c] = v`). -/
def tset (T : ℕ → ℕ → ℚ) (r c : ℕ) (v : ℚ) : ℕ → ℕ → ℚ :=
  fun a b => if a = r ∧ b = c then v else T a b

/-- Point update of the column table (`V[:, k] = col`). -/
def vset (V : ℕ → List ℚ) (k : ℕ) (col : List ℚ) : ℕ → List ℚ :=
  fun j => if j = k then col else V j

/-- Point update of a coefficient sequence. -/
def fset (f : ℕ → ℚ) (k : ℕ) (v : ℚ) : ℕ → ℚ :=
  fun j => if j = k then v else f j

/-- Lanczos breakdown tolerance `1e-10` (solver.py line 131). -/
def lanczosTol : ℚ := 1 / 10 ^ 10

/-- Instrumented state of the Lanczos loop: the tables `T` and `V`, the
residual `w`, the loop index `i`, and instrumentation recording the `alpha` /
`beta` coefficient produced at each index and the number of column writes
into `V`. -/
structure LState where
  T : ℕ → ℕ → ℚ
  V : ℕ → List ℚ
  w : List ℚ
  i : ℕ
  alphas : ℕ → ℚ
  betas : ℕ → ℚ
  writes : ℕ

/-- One step of the reorthogonalization inner loop (solver.py lines 136-142
and 151-157): `vr = vr - (vr·V[:,j]) / (V[:,j]·V[:,j]) * V[:,j]`; the two dot
products are computed locally and summed by `Allreduce`, which over exact
arithmetic is the global dot product. -/
def gsStep (V : ℕ → List ℚ) (vr : List ℚ) (j : ℕ) : List ℚ :=
  vsub vr (smul (dotQ vr (V j) / dotQ (V j) (V j)) (V j))

/-- The reorthogonalization loop `for j in range(i)`. -/
def gramSchmidt (V : ℕ → List ℚ) (vr : List ℚ) (i : ℕ) : List ℚ :=
  (List.range i).foldl (gsStep V) vr

/-- One iteration `i ≥ 1` of the Lanczos loop (solver.py lines 129-169):
`beta = ‖w‖`; on breakdown (`|beta| < 1e-10`) a fresh random vector is
re-orthogonalized and normalized, otherwise `w` itself is re-orthogonalized
and normalized; then `w = A·v_i`, `alpha = w·v_i`,
`w = w - alpha·v_i - beta·V[:,i-1]`, and `beta`, `alpha`, `v_i` are stored at
`T[i-1,i]`, `T[i,i-1]`, `T[i,i]`, `V[:,i]`. -/
def lanczosStep (A : List (List ℚ)) (s : ℚ → ℚ) (rand : ℕ → List ℚ)
    (st : LState) : LState :=
  let i := st.i
  let beta := s (dotQ st.w st.w)
  let vi :=
    if |beta| < lanczosTol then
      let vr := gramSchmidt st.V (rand i) i
      vdiv vr (s (dotQ vr vr))
    else
      let vr := gramSchmidt st.V st.w i
      vdiv vr (s (dotQ vr vr))
  let w1 := matVec A vi
  let alpha := dotQ w1 vi
  { T := tset (tset (tset st.T (i - 1) i beta) i (i - 1) beta) i i alpha
    V := vset st.V i vi
    w := vsub (vsub w1 (smul alpha vi)) (smul beta (st.V (i - 1)))
    i := i + 1
    alphas := fset st.alphas i alpha
    betas := fset st.betas i beta
    writes := st.writes + 1 }

/-- The 0th iteration of `lanczos` (solver.py lines 109-128): `T = zeros`,
`V = ones((n, m))` (column table), `w = A·v0`, `alpha = w·v0`,
`w = w - alpha·v0`, `T[0,0] = alpha`, `V[:,0] = v0`. -/
def lanczosInit (A : List (List ℚ)) (n : ℕ) (v0 : List ℚ) : LState :=
  let w := matVec A v0
  let alpha := dotQ w v0
  { T := tset (fun _ _ => 0) 0 0 alpha
    V := vset (fun _ => List.replicate n 1) 0 v0
    w := vsub w (smul alpha v0)
    i := 1
    alphas := fset (fun _ => 0) 0 alpha
    betas := fun _ => 0
    writes := 1 }

/-- The loop `for i in range(1, int(m))` (solver.py line 129), fuel `m - 1`. -/
def lanczosLoop (A : List (List ℚ)) (s : ℚ → ℚ) (rand : ℕ → List ℚ) :
    ℕ → LState → LState
  | 0, st => st
  | fuel + 1, st => lanczosLoop A s rand fuel (lanczosStep A s rand st)

/-- The body of `lanczos(A, m, v0)` after validation, for an `n × n` matrix
(`n = A.length`): the 0th iteration followed by `m - 1` loop iterations. -/
def lanczosRun (A : List (List ℚ)) (s : ℚ → ℚ) (rand : ℕ → List ℚ)
    (m : ℕ) (v0 : List ℚ) : LState :=
  lanczosLoop A s rand (m - 1) (lanczosInit A A.length v0)

/-- The starting vector when `v0` is omitted (solver.py lines 116-118):
`vr = ht.random.rand(n)` (oracle index 0) normalized to unit norm. -/
def lanczosV0Default (s : ℚ → ℚ) (rand : ℕ → List ℚ) : List ℚ :=
  vdiv (rand 0) (s (dotQ (rand 0) (rand 0)))

/-- Split-axis choice for the basis matrix `V` (solver.py lines 110-114):
split along axis 0 exactly when `A.split == 0`, otherwise unsplit. -/
def lanczosVSplit (Asplit : Option ℕ) : Option ℕ :=
  if Asplit = some 0 then some 0 else none

/-- The final resplit of `V` (solver.py lines 171-172): if `V.split` is not
`None`, `V.resplit_(axis=None)` runs, so the returned split axis is below. -/
def lanczosReturnSplit (Asplit : Option ℕ) : Option ℕ :=
  if lanczosVSplit Asplit ≠ none then none else lanczosVSplit Asplit

/-- The split axis of the caller's `v0` object after the call (solver.py lines
119-121): `v0.resplit_(axis=V.split)` runs in place whenever the supplied
`v0`'s split differs from `V`'s split. -/
def lanczosV0SplitAfter (Asplit v0split : Option ℕ) : Option ℕ :=
  if v0split ≠ lanczosVSplit Asplit then lanczosVSplit Asplit else v0split

theorem vsub_length (v w : List ℚ) : (vsub v w).length = min v.length w.length := by
  simp [vsub]

theorem smul_length (c : ℚ) (v : List ℚ) : (smul c v).length = v.length := by
  simp [smul]

theorem vdiv_length (v : List ℚ) (c : ℚ) : (vdiv v c).length = v.length := by
  simp [vdiv]

theorem matVec_length (A : List (List ℚ)) (v : List ℚ) :
    (matVec A v).length = A.length := by
  simp [matVec]

theorem gramSchmidt_length (V : ℕ → List ℚ) (n : ℕ) (hV : ∀ j, (V j).length = n) :
    ∀ (js : List ℕ) (vr : List ℚ), vr.length = n →
      (js.foldl (gsStep V) vr).length = n := by
  intro js
  induction js with
  | nil => intro vr hvr; exact hvr
  | cons j js ih =>
    intro vr hvr
    refine ih _ ?_
    rw [gsStep, vsub_length, smul_length, hvr, hV j]
    exact Nat.min_self n

/-- Invariant of the Lanczos iteration at basis size `st.i` for an `n × n`
matrix: the counters, the column and residual lengths, and the written region
of `T` — tridiagonal below `st.i`, symmetric, with the recorded `alpha` on the
diagonal and the recorded `beta` on the two off-diagonals. -/
def LInv (n : ℕ) (st : LState) : Prop :=
  1 ≤ st.i ∧
  st.writes = st.i ∧
  (∀ j, (st.V j).length = n) ∧
  st.w.length = n ∧
  (∀ r c, ¬(r = c ∧ r < st.i) → ¬(c = r + 1 ∧ c < st.i) → ¬(r = c + 1 ∧ r < st.i) →
    st.T r c = 0) ∧
  (∀ r c, st.T r c = st.T c r) ∧
  (∀ r, r < st.i → st.T r r = st.alphas r) ∧
  (∀ r, 1 ≤ r → r < st.i → st.T (r - 1) r = st.betas r ∧ st.T r (r - 1) = st.betas r)

theorem lanczosInit_inv (A : List (List ℚ)) (n : ℕ) (hA : A.length = n)
    (v0 : List ℚ) (hv : v0.length = n) : LInv n (lanczosInit A n v0) := by
  refine ⟨Nat.le_refl 1, rfl, ?_, ?_, ?_, ?_, ?_, ?_⟩
  · intro j
    by_cases hj : j = 0 <;> simp [lanczosInit, vset, hj, hv]
  · rw [lanczosInit]
    rw [vsub_length, smul_length, matVec_length, hA, hv]
    exact Nat.min_self n
  · intro r c h1 _ _
    simp only [lanczosInit] at h1
    simp only [lanczosInit, tset]
    rw [if_neg (by omega)]
  · intro r c
    simp only [lanczosInit, tset]
    by_cases h : r = 0 ∧ c = 0
    · rw [if_pos h, if_pos ⟨h.2, h.1⟩]
    · rw [if_neg h, if_neg (fun hcr => h ⟨hcr.2, hcr.1⟩)]
  · intro r hr
    simp only [lanczosInit] at hr
    have hr0 : r = 0 := by omega
    simp [lanczosInit, tset, fset, hr0]
  · intro r h1 h2
    simp only [lanczosInit] at h2
    omega

theorem lanczosStep_inv (A : List (List ℚ)) (s : ℚ → ℚ) (rand : ℕ → List ℚ)
    (n : ℕ) (hA : A.length = n) (hr : ∀ k, (rand k).length = n)
    (st : LState) (h : LInv n st) : LInv n (lanczosStep A s rand st) := by
  obtain ⟨hi, hw, hV, hwl, hT0, hTs, hTd, hTo⟩ := h
  have hviLen :
      (if |s (dotQ st.w st.w)| < lanczosTol then
        vdiv (gramSchmidt st.V (rand st.i) st.i)
          (s (dotQ (gramSchmidt st.V (rand st.i) st.i) (gramSchmidt st.V (rand st.i) st.i)))
      else
        vdiv (gramSchmidt st.V st.w st.i)
          (s (dotQ (gramSchmidt st.V st.w st.i) (gramSchmidt st.V st.w st.i)))).length = n := by
    split
    · rw [vdiv_length]
      exact gramSchmidt_length st.V n hV _ (rand st.i) (hr st.i)
    · rw [vdiv_length]
      exact gramSchmidt_length st.V n hV _ st.w hwl
  refine ⟨by simp only [lanczosStep]; omega, ?_, ?_, ?_, ?_, ?_, ?_, ?_⟩
  · show st.writes + 1 = st.i + 1
    omega
  · intro j
    show (vset st.V st.i _ j).length = n
    rw [vset]
    split
    · exact hviLen
    · exact hV j
  · show (vsub (vsub (matVec A _) (smul _ _)) (smul _ (st.V (st.i - 1)))).length = n
    rw [vsub_length, vsub_length, smul_length, smul_length, matVec_length, hA,
      hviLen, hV]
    omega
  · intro r c h1 h2 h3
    show tset (tset (tset st.T (st.i - 1) st.i _) st.i (st.i - 1) _) st.i st.i _ r c = 0
    simp only [lanczosStep] at h1 h2 h3
    simp only [tset]
    rw [if_neg (by omega), if_neg (by omega), if_neg (by omega)]
    exact hT0 r c (by omega) (by omega) (by omega)
  · intro r c
    show tset (tset (tset st.T (st.i - 1) st.i _) st.i (st.i - 1) _) st.i st.i _ r c =
      tset (tset (tset st.T (st.i - 1) st.i _) st.i (st.i - 1) _) st.i st.i _ c r
    simp only [tset]
    split_ifs <;> first | rfl | omega | exact hTs r c
  · intro r hrlt
    show tset (tset (tset st.T (st.i - 1) st.i _) st.i (st.i - 1) _) st.i st.i _ r r =
      fset st.alphas st.i _ r
    simp only [lanczosStep] at hrlt
    simp only [tset, fset]
    by_cases hri : r = st.i
    · rw [if_pos ⟨hri, hri⟩, if_pos hri]
    · rw [if_neg (by omega), if_neg (by omega), if_neg (by omega), if_neg hri]
      exact hTd r (by omega)
  · intro r h1 h2
    show tset (tset (tset st.T (st.i - 1) st.i _) st.i (st.i - 1) _) st.i st.i _ (r - 1) r =
        fset st.betas st.i _ r ∧
      tset (tset (tset st.T (st.i - 1) st.i _) st.i (st.i - 1) _) st.i st.i _ r (r - 1) =
        fset st.betas st.i _ r
    simp only [lanczosStep] at h2
    simp only [tset, fset]
    by_cases hri : r = st.i
    · constructor
      · rw [if_neg (by omega), if_neg (by omega), if_pos ⟨by omega, by omega⟩, if_pos hri]
      · rw [if_neg (by omega), if_pos ⟨by omega, by omega⟩, if_pos hri]
    · constructor
      · rw [if_neg (by omega), if_neg (by omega), if_neg (by omega), if_neg hri]
        exact (hTo r h1 (by omega)).1
      · rw [if_neg (by omega), if_neg (by omega), if_neg (by omega), if_neg hri]
        exact (hTo r h1 (by omega)).2

theorem lanczosLoop_inv (A : List (List ℚ)) (s : ℚ → ℚ) (rand : ℕ → List ℚ)
    (n : ℕ) (hA : A.length = n) (hr : ∀ k, (rand k).length = n) :
    ∀ (fuel : ℕ) (st : LState), LInv n st → LInv n (lanczosLoop A s rand fuel st) := by
  intro fuel
  induction fuel with
  | zero => intro st h; exact h
  | succ k ih =>
    intro st h
    exact ih _ (lanczosStep_inv A s rand n hA hr st h)

theorem lanczosLoop_i (A : List (List ℚ)) (s : ℚ → ℚ) (rand : ℕ → List ℚ) :
    ∀ (fuel : ℕ) (st : LState), (lanczosLoop A s rand fuel st).i = st.i + fuel := by
  intro fuel
  induction fuel with
  | zero => intro st; rfl
  | succ k ih =>
    intro st
    rw [lanczosLoop, ih]
    show (lanczosStep A s rand st).i + k = st.i + (k + 1)
    simp only [lanczosStep]
    omega

theorem lanczosRun_inv (A : List (List ℚ)) (s : ℚ → ℚ) (rand : ℕ → List ℚ)
    (m : ℕ) (v0 : List ℚ) (hv : v0.length = A.length)
    (hr : ∀ k, (rand k).length = A.length) :
    LInv A.length (lanczosRun A s rand m v0) := by
  exact lanczosLoop_inv A s rand A.length rfl hr (m - 1) _
    (lanczosInit_inv A A.length rfl v0 hv)

theorem lanczosRun_i (A : List (List ℚ)) (s : ℚ → ℚ) (rand : ℕ → List ℚ)
    (m : ℕ) (v0 : List ℚ) (hm : 1 ≤ m) : (lanczosRun A s rand m v0).i = m := by
  rw [lanczosRun, lanczosLoop_i]
  show 1 + (m - 1) = m
  omega

/-- C3: for a square `n × n` matrix `A` and positive `m`, `lanczos(A, m)`
produces a basis of exactly `m` columns (one `V[:, i]` write per iteration,
breakdown branch included — the random-vector substitution never shortens the
output), each column of length `n`, and a coefficient matrix `T` confined to
the `m × m` region (zero at any index at or beyond `m`).  `s` is the abstract
square root of `ht.norm` and `rand` the random-vector oracle, so the statement
covers the breakdown branch for every possible draw. -/
theorem lanczos_fills_m_columns (A : List (List ℚ)) (s : ℚ → ℚ)
    (rand : ℕ → List ℚ) (m : ℕ) (v0 : List ℚ) (hm : 1 ≤ m)
    (hv : v0.length = A.length) (hr : ∀ k, (rand k).length = A.length) :
    (lanczosRun A s rand m v0).writes = m ∧
    (∀ j, j < m → ((lanczosRun A s rand m v0).V j).length = A.length) ∧
    (∀ r c, m ≤ r ∨ m ≤ c → (lanczosRun A s rand m v0).T r c = 0) := by
  obtain ⟨hi, hw, hV, hwl, hT0, hTs, hTd, hTo⟩ := lanczosRun_inv A s rand m v0 hv hr
  have him := lanczosRun_i A s rand m v0 hm
  rw [him] at hw hT0
  exact ⟨hw, fun j _ => hV j,
    fun r c hrc => hT0 r c (by omega) (by omega) (by omega)⟩

/-- Witness for C3 at `A = [[0, 1], [1, 0]]`, `m = 2`, `v0 = [1, 0]`,
`s = id`, constant random oracle `[1, 1]`. -/
theorem lanczos_fills_m_columns_witness :
    (1 ≤ 2 ∧ ([(1 : ℚ), 0] : List ℚ).length = ([[(0 : ℚ), 1], [1, 0]] : List (List ℚ)).length ∧
      ∀ k : ℕ, ((fun _ : ℕ => [(1 : ℚ), 1]) k).length = ([[(0 : ℚ), 1], [1, 0]] : List (List ℚ)).length) ∧
    ((lanczosRun [[0, 1], [1, 0]] (fun q => q) (fun _ => [1, 1]) 2 [1, 0]).writes = 2 ∧
    (∀ j, j < 2 → ((lanczosRun [[0, 1], [1, 0]] (fun q => q) (fun _ => [1, 1]) 2 [1, 0]).V j).length
      = ([[(0 : ℚ), 1], [1, 0]] : List (List ℚ)).length) ∧
    (∀ r c, 2 ≤ r ∨ 2 ≤ c →
      (lanczosRun [[0, 1], [1, 0]] (fun q => q) (fun _ => [1, 1]) 2 [1, 0]).T r c = 0)) :=
  ⟨⟨by omega, rfl, fun _ => rfl⟩,
    lanczos_fills_m_columns [[0, 1], [1, 0]] (fun q => q) (fun _ => [1, 1]) 2 [1, 0]
      (by omega) rfl (fun _ => rfl)⟩

/-- C5: the matrix `T` produced by `lanczos(A, m)` is symmetric and
tridiagonal: every entry with `|r − c| > 1` is zero, `T` equals its transpose
entrywise, the diagonal entry `T[i, i]` is the `alpha` coefficient computed at
iteration `i`, and the off-diagonal pair `T[i-1, i] = T[i, i-1]` is the `beta`
coefficient computed at iteration `i`. -/
theorem lanczos_T_tridiagonal_symmetric (A : List (List ℚ)) (s : ℚ → ℚ)
    (rand : ℕ → List ℚ) (m : ℕ) (v0 : List ℚ) (hm : 1 ≤ m)
    (hv : v0.length = A.length) (hr : ∀ k, (rand k).length = A.length) :
    (∀ r c, r + 1 < c →
      (lanczosRun A s rand m v0).T r c = 0 ∧ (lanczosRun A s rand m v0).T c r = 0) ∧
    (∀ r c, (lanczosRun A s rand m v0).T r c = (lanczosRun A s rand m v0).T c r) ∧
    (∀ r, r < m →
      (lanczosRun A s rand m v0).T r r = (lanczosRun A s rand m v0).alphas r) ∧
    (∀ r, 1 ≤ r → r < m →
      (lanczosRun A s rand m v0).T (r - 1) r = (lanczosRun A s rand m v0).betas r ∧
      (lanczosRun A s rand m v0).T r (r - 1) = (lanczosRun A s rand m v0).betas r) := by
  obtain ⟨hi, hw, hV, hwl, hT0, hTs, hTd, hTo⟩ := lanczosRun_inv A s rand m v0 hv hr
  have him := lanczosRun_i A s rand m v0 hm
  rw [him] at hT0 hTd hTo
  refine ⟨fun r c hrc => ?_, hTs, hTd, hTo⟩
  exact ⟨hT0 r c (by omega) (by omega) (by omega), hT0 c r (by omega) (by omega) (by omega)⟩

/-- Witness for C5 at the same concrete instance as the C3 witness. -/
theorem lanczos_T_tridiagonal_symmetric_witness :
    (1 ≤ 2 ∧ ([(1 : ℚ), 0] : List ℚ).length = ([[(0 : ℚ), 1], [1, 0]] : List (List ℚ)).length ∧
      ∀ k : ℕ, ((fun _ : ℕ => [(1 : ℚ), 1]) k).length = ([[(0 : ℚ), 1], [1, 0]] : List (List ℚ)).length) ∧
    ((∀ r c, r + 1 < c →
      (lanczosRun [[0, 1], [1, 0]] (fun q => q) (fun _ => [1, 1]) 2 [1, 0]).T r c = 0 ∧
      (lanczosRun [[0, 1], [1, 0]] (fun q => q) (fun _ => [1, 1]) 2 [1, 0]).T c r = 0) ∧
    (∀ r c, (lanczosRun [[0, 1], [1, 0]] (fun q => q) (fun _ => [1, 1]) 2 [1, 0]).T r c =
      (lanczosRun [[0, 1], [1, 0]] (fun q => q) (fun _ => [1, 1]) 2 [1, 0]).T c r) ∧
    (∀ r, r < 2 →
      (lanczosRun [[0, 1], [1, 0]] (fun q => q) (fun _ => [1, 1]) 2 [1, 0]).T r r =
      (lanczosRun [[0, 1], [1, 0]] (fun q => q) (fun _ => [1, 1]) 2 [1, 0]).alphas r) ∧
    (∀ r, 1 ≤ r → r < 2 →
      (lanczosRun [[0, 1], [1, 0]] (fun q => q) (fun _ => [1, 1]) 2 [1, 0]).T (r - 1) r =
        (lanczosRun [[0, 1], [1, 0]] (fun q => q) (fun _ => [1, 1]) 2 [1, 0]).betas r ∧
      (lanczosRun [[0, 1], [1, 0]] (fun q => q) (fun _ => [1, 1]) 2 [1, 0]).T r (r - 1) =
        (lanczosRun [[0, 1], [1, 0]] (fun q => q) (fun _ => [1, 1]) 2 [1, 0]).betas r)) :=
  ⟨⟨by omega, rfl, fun _ => rfl⟩,
    lanczos_T_tridiagonal_symmetric [[0, 1], [1, 0]] (fun q => q) (fun _ => [1, 1]) 2 [1, 0]
      (by omega) rfl (fun _ => rfl)⟩

/-- C6: the basis matrix `V` is allocated with split axis 0 exactly when `A`
is split along axis 0 and unsplit otherwise, and the `V` returned to the
caller is always unsplit because of the final `resplit_(axis=None)`. -/
theorem lanczos_V_split_choice (Asplit : Option ℕ) :
    (lanczosVSplit Asplit = some 0 ↔ Asplit = some 0) ∧
    (Asplit ≠ some 0 → lanczosVSplit Asplit = none) ∧
    lanczosReturnSplit Asplit = none := by
  by_cases h : Asplit = some 0 <;>
    simp [lanczosVSplit, lanczosReturnSplit, h]

/-- Witness for C6 at `A.split = 1`. -/
theorem lanczos_V_split_choice_witness :
    (some 1 ≠ some 0 ∧ lanczosVSplit (some 1) = none) ∧
    lanczosReturnSplit (some 1) = none :=
  ⟨⟨by decide, (lanczos_V_split_choice (some 1)).2.1 (by decide)⟩,
    (lanczos_V_split_choice (some 1)).2.2⟩

/-- C9: when the caller supplies a starting vector `v0` whose split axis
differs from the split axis chosen for `V`, `lanczos` resplits the caller's
`v0` object in place, so after the call the caller-held `v0` carries `V`'s
split axis — a split axis different from the one it was passed with. -/
theorem lanczos_v0_resplit_side_effect (Asplit v0split : Option ℕ)
    (h : v0split ≠ lanczosVSplit Asplit) :
    lanczosV0SplitAfter Asplit v0split = lanczosVSplit Asplit ∧
    lanczosV0SplitAfter Asplit v0split ≠ v0split := by
  rw [lanczosV0SplitAfter, if_pos h]
  exact ⟨rfl, fun hc => h hc.symm⟩

/-- Witness for C9: `A` split along axis 0 (so `V` is split along axis 0) and
an unsplit `v0`. -/
theorem lanczos_v0_resplit_side_effect_witness :
    ((none : Option ℕ) ≠ lanczosVSplit (some 0)) ∧
    (lanczosV0SplitAfter (some 0) none = lanczosVSplit (some 0) ∧
      lanczosV0SplitAfter (some 0) none ≠ none) :=
  ⟨by decide, lanczos_v0_resplit_side_effect (some 0) none (by decide)⟩

/-! ### Argument validation and output buffers (solver.py lines 28-40, 53-65,
98-108, 174-182)

Python exception classes are modelled by `PyErr`.  The `dimensionError`
constructor is modelled from the spec (§4.3 names a `DimensionError` class);
it exists only as the refinement target to compare the raised class against —
no code path produces it.  A Python argument that may or may not be a
`DNDarray` is a `PyObj`: either a rank-1 / rank-2 array or a non-array
value. -/

inductive PyErr where
  | typeError (msg : String)
  | runtimeError (msg : String)
  | valueError (msg : String)
  | dimensionError (msg : String)
  deriving Repr, DecidableEq

inductive QTensor where
  | v1 (x : List ℚ)
  | v2 (x : List (List ℚ))
  deriving Repr, DecidableEq

/-- `DNDarray.ndim` of the modelled tensor. -/
def QTensor.ndim : QTensor → ℕ
  | .v1 _ => 1
  | .v2 _ => 2

inductive PyObj where
  | arr (t : QTensor)
  | notArr (tyName : String)
  deriving Repr, DecidableEq

/-- The `isinstance(·, DNDarray)` test. -/
def PyObj.isArr : PyObj → Bool
  | .arr _ => true
  | .notArr _ => false

/-- `ndim` of an argument, defaulting to 0 on a non-array (only meaningful
after the `isinstance` check passes). -/
def PyObj.ndimD : PyObj → ℕ
  | .arr t => t.ndim
  | .notArr _ => 0

/-- Does a result carry the spec's `DimensionError` class? -/
def isDimensionError {α : Type} : Except PyErr α → Bool
  | .error (.dimensionError _) => true
  | _ => false

/-- `cg`'s argument validation (solver.py lines 28-40) followed by the solver
body: `TypeError` when any argument is not a `DNDarray`, else `RuntimeError`
when `A` is not 2-D, then when `b` is not 1-D, then when `x0` is not 1-D.
Every error is produced by this validation prologue, before the loop of
`cgRun` can run. -/
def cgChecked (A b x0 : PyObj) : Except PyErr (List ℚ) :=
  match A, b, x0 with
  | .arr tA, .arr tb, .arr tx =>
    match tA with
    | .v1 _ => .error (.runtimeError "A needs to be a 2D matrix")
    | .v2 M =>
      match tb with
      | .v2 _ => .error (.runtimeError "b needs to be a 1D vector")
      | .v1 bv =>
        match tx with
        | .v2 _ => .error (.runtimeError "c needs to be a 1D vector")
        | .v1 xv => .ok (cg M bv xv)
  | _, _, _ => .error (.typeError "A, b and x0 need to be of type ht.DNDarray")

/-- `cg` with its optional `out` argument (solver.py lines 53-58, 62-64):
`out = x` rebinds the local name only — the caller's buffer is never read,
validated or written, and the computed `x` is the returned value either way.
The second component is the caller-visible buffer content after the call. -/
def cgCheckedOut (A b x0 : PyObj) (out : Option (List ℚ)) :
    Except PyErr (List ℚ × Option (List ℚ)) :=
  match cgChecked A b x0 with
  | .ok x =>
    match out with
    | some buf => .ok (x, some buf)
    | none => .ok (x, none)
  | .error e => .error e

/-- `lanczos`'s argument validation (solver.py lines 98-108) followed by the
body: `TypeError` when `A` is not a `DNDarray`, `RuntimeError` when `A` is not
2-D, and `TypeError("Input Matrix A needs to be symmetric.")` when
`n, column = A.shape` disagree — a squareness test only, the values of a
square `A` are never compared against their transpose.  (`isinstance(m, (int,
float))` always passes here since `m : ℕ`; `column` is the common row length,
`A.shape[1]`.) -/
def lanczosChecked (A : PyObj) (s : ℚ → ℚ) (rand : ℕ → List ℚ) (m : ℕ)
    (v0 : List ℚ) : Except PyErr LState :=
  match A with
  | .notArr _ => .error (.typeError "A needs to be of type ht.dndarra")
  | .arr (.v1 _) => .error (.runtimeError "A needs to be a 2D matrix")
  | .arr (.v2 M) =>
    if M.length ≠ (M.headD []).length then
      .error (.typeError "Input Matrix A needs to be symmetric.")
    else .ok (lanczosRun M s rand m v0)

/-- `lanczos` with its optional `V_out` / `T_out` arguments (solver.py lines
174-182): `T_out = T.copy()` and `V_out = V.copy()` rebind local names to
fresh copies — the caller's buffers are never read, validated or written, and
the returned pair always carries the computed `V` and `T` content.  The last
two components are the caller-visible buffer contents after the call. -/
def lanczosCheckedOut (A : PyObj) (s : ℚ → ℚ) (rand : ℕ → List ℚ) (m : ℕ)
    (v0 : List ℚ) (Vout Tout : Option (List (List ℚ))) :
    Except PyErr (LState × Option (List (List ℚ)) × Option (List (List ℚ))) :=
  match lanczosChecked A s rand m v0 with
  | .ok st => .ok (st, Vout, Tout)
  | .error e => .error e

/-- C7 counterexample: with a 1-D `A` (and valid 1-D `b`, `x0`), `cg` raises
`RuntimeError("A needs to be a 2D matrix")` — a `RuntimeError`, not the
spec's `DimensionError` class, so the claim's error class is wrong on the
code. -/
theorem cg_dimension_error_counterexample :
    cgChecked (.arr (.v1 [1])) (.arr (.v1 [1])) (.arr (.v1 [0])) =
      .error (.runtimeError "A needs to be a 2D matrix") ∧
    isDimensionError (cgChecked (.arr (.v1 [1])) (.arr (.v1 [1])) (.arr (.v1 [0]))) =
      false :=
  ⟨rfl, rfl⟩

/-- C7 (amended): `cg` raises `TypeError` whenever any of `A`, `b`, `x0` is
not the partitioned-array type, and raises `RuntimeError` — not a dedicated
`DimensionError` class — when `A` is not 2-D, or (`A` 2-D) `b` is not 1-D, or
(`A` 2-D, `b` 1-D) `x0` is not 1-D; every such error comes from the
validation prologue before any solver iteration runs, and no input at all
yields the spec's `DimensionError`. -/
theorem cg_argument_checks (A b x0 : PyObj) :
    (A.isArr = false ∨ b.isArr = false ∨ x0.isArr = false →
      cgChecked A b x0 = .error (.typeError "A, b and x0 need to be of type ht.DNDarray")) ∧
    (A.isArr = true → b.isArr = true → x0.isArr = true → A.ndimD ≠ 2 →
      cgChecked A b x0 = .error (.runtimeError "A needs to be a 2D matrix")) ∧
    (A.isArr = true → b.isArr = true → x0.isArr = true → A.ndimD = 2 → b.ndimD ≠ 1 →
      cgChecked A b x0 = .error (.runtimeError "b needs to be a 1D vector")) ∧
    (A.isArr = true → b.isArr = true → x0.isArr = true → A.ndimD = 2 → b.ndimD = 1 →
        x0.ndimD ≠ 1 →
      cgChecked A b x0 = .error (.runtimeError "c needs to be a 1D vector")) ∧
    isDimensionError (cgChecked A b x0) = false := by
  rcases A with ⟨xA | MA⟩ | nA <;> rcases b with ⟨xb | Mb⟩ | nb <;>
    rcases x0 with ⟨xx | Mx⟩ | nx <;>
    refine ⟨?_, ?_, ?_, ?_, ?_⟩ <;> intros <;>
    simp_all [cgChecked, PyObj.isArr, PyObj.ndimD, QTensor.ndim, isDimensionError]

/-- Witness for C7 (amended) with a non-array `A`. -/
theorem cg_argument_checks_witness :
    (PyObj.isArr (.notArr "int") = false ∨ PyObj.isArr (.arr (.v1 [1])) = false ∨
      PyObj.isArr (.arr (.v1 [0])) = false) ∧
    cgChecked (.notArr "int") (.arr (.v1 [1])) (.arr (.v1 [0])) =
      .error (.typeError "A, b and x0 need to be of type ht.DNDarray") :=
  ⟨Or.inl rfl,
    (cg_argument_checks (.notArr "int") (.arr (.v1 [1])) (.arr (.v1 [0]))).1 (Or.inl rfl)⟩

/-- C8: `lanczos` raises `TypeError` exactly when the two entries of `A.shape`
differ, with a message calling the matrix non-symmetric; squareness of the
shape is the only such check — any square `A`, symmetric in values or not, is
accepted and the iteration proceeds. -/
theorem lanczos_square_only_check (M : List (List ℚ)) (s : ℚ → ℚ)
    (rand : ℕ → List ℚ) (m : ℕ) (v0 : List ℚ) :
    (M.length ≠ (M.headD []).length →
      lanczosChecked (.arr (.v2 M)) s rand m v0 =
        .error (.typeError "Input Matrix A needs to be symmetric.")) ∧
    (M.length = (M.headD []).length →
      lanczosChecked (.arr (.v2 M)) s rand m v0 = .ok (lanczosRun M s rand m v0)) := by
  constructor
  · intro h
    rw [lanczosChecked, if_pos h]
  · intro h
    rw [lanczosChecked, if_neg (fun hne => hne h)]

/-- Witness for C8: the square but non-symmetric matrix `[[1, 2], [3, 4]]` is
accepted without error. -/
theorem lanczos_square_only_check_witness :
    ([[(1 : ℚ), 2], [3, 4]] : List (List ℚ)).length =
      (([[(1 : ℚ), 2], [3, 4]] : List (List ℚ)).headD []).length ∧
    lanczosChecked (.arr (.v2 [[1, 2], [3, 4]])) (fun q => q) (fun _ => [1, 1]) 2 [1, 0] =
      .ok (lanczosRun [[1, 2], [3, 4]] (fun q => q) (fun _ => [1, 1]) 2 [1, 0]) :=
  ⟨rfl,
    (lanczos_square_only_check [[1, 2], [3, 4]] (fun q => q) (fun _ => [1, 1]) 2 [1, 0]).2 rfl⟩

/-- C4 counterexample: a pre-allocated `out` buffer of the wrong shape
(length 3 for a length-2 system) does not make `cg` raise `ValueError`: the
call returns normally with the computed solution and the caller's buffer is
untouched. -/
theorem out_buffer_counterexample :
    cgCheckedOut (.arr (.v2 [[1, 0], [0, 1]])) (.arr (.v1 [1, 2])) (.arr (.v1 [0, 0]))
      (some [0, 0, 0]) = .ok ([1, 2], some [0, 0, 0]) := by
  norm_num [cgCheckedOut, cgChecked, cg, cgRun, cgLoop, cgIter, dotQ, matVec, vadd,
    vsub, smul, cgTolSq]

/-- C4 (amended): `cg`'s `out` parameter and `lanczos`'s `V_out` / `T_out`
parameters are silently ignored: buffers of any shape or split raise no
`ValueError` (no error at all), the caller's buffers are left unchanged, and
the computed result is returned regardless — the assignments `out = x`,
`V_out = V.copy()`, `T_out = T.copy()` rebind local names only. -/
theorem out_buffers_ignored (M : List (List ℚ)) (bv xv : List ℚ)
    (out : Option (List ℚ)) (s : ℚ → ℚ) (rand : ℕ → List ℚ) (m : ℕ)
    (v0 : List ℚ) (Vout Tout : Option (List (List ℚ)))
    (hsq : M.length = (M.headD []).length) :
    cgCheckedOut (.arr (.v2 M)) (.arr (.v1 bv)) (.arr (.v1 xv)) out =
      .ok (cg M bv xv, out) ∧
    lanczosCheckedOut (.arr (.v2 M)) s rand m v0 Vout Tout =
      .ok (lanczosRun M s rand m v0, Vout, Tout) := by
  constructor
  · cases out <;> rfl
  · rw [lanczosCheckedOut, lanczosChecked]
    rw [if_neg (fun hne => hne hsq)]

/-- Witness for C4 (amended) with wrong-shaped buffers everywhere: a length-3
`out` for a length-2 system, a 1×1 `V_out` and an absent `T_out`. -/
theorem out_buffers_ignored_witness :
    ([[(1 : ℚ), 0], [0, 1]] : List (List ℚ)).length =
      (([[(1 : ℚ), 0], [0, 1]] : List (List ℚ)).headD []).length ∧
    (cgCheckedOut (.arr (.v2 [[1, 0], [0, 1]])) (.arr (.v1 [1, 2])) (.arr (.v1 [0, 0]))
        (some [0, 0, 9]) = .ok (cg [[1, 0], [0, 1]] [1, 2] [0, 0], some [0, 0, 9]) ∧
      lanczosCheckedOut (.arr (.v2 [[1, 0], [0, 1]])) (fun q => q) (fun _ => [1, 1]) 2 [1, 0]
          (some [[5]]) none =
        .ok (lanczosRun [[1, 0], [0, 1]] (fun q => q) (fun _ => [1, 1]) 2 [1, 0],
          some [[5]], none)) :=
  ⟨rfl,
    out_buffers_ignored [[1, 0], [0, 1]] [1, 2] [0, 0] (some [0, 0, 9]) (fun q => q)
      (fun _ => [1, 1]) 2 [1, 0] (some [[5]]) none rfl⟩

/-! ### `PartialH5Dataset.__init__` length validation
(partial_dataset.py lines 100-109) -/

/-- The loop `for k in fkeys[1:]` of `PartialH5Dataset.__init__`: each further
dataset's length is compared against `sz` (the first dataset's length) in file
order; the first mismatch raises `ValueError` and on success `sz` is returned
(it becomes `self.total_size`, the first piece of loader state — so an error
precedes all loader state). -/
def checkLens (file : String) (sz : ℕ) : List ℕ → Except PyErr ℕ
  | [] => .ok sz
  | l :: rest =>
    if l ≠ sz then
      .error (.valueError ("all datasets in " ++ file ++ " must be the same length"))
    else checkLens file sz rest

/-- `PartialH5Dataset.__init__` restricted to its dataset-length validation:
the arguments are `f[k].len()` for the file's keys in order (`sz` for
`fkeys[0]`, the list for `fkeys[1:]`; the code unconditionally indexes
`fkeys[0]`, so the file has at least one dataset). -/
def partialH5Init (file : String) (sz : ℕ) (rest : List ℕ) : Except PyErr ℕ :=
  checkLens file sz rest

/-- C10: `PartialH5Dataset.__init__` raises `ValueError` exactly when some
dataset's length differs from the first dataset's length, and otherwise
proceeds with `total_size` equal to that common length; the error return
precedes any loader state. -/
theorem partialH5_equal_length_check (file : String) (sz : ℕ) (rest : List ℕ) :
    ((∃ l ∈ rest, l ≠ sz) →
      partialH5Init file sz rest =
        .error (.valueError ("all datasets in " ++ file ++ " must be the same length"))) ∧
    ((∀ l ∈ rest, l = sz) → partialH5Init file sz rest = .ok sz) := by
  induction rest with
  | nil =>
    exact ⟨fun h => by simp at h, fun _ => rfl⟩
  | cons l rest ih =>
    constructor
    · intro h
      rw [partialH5Init, checkLens]
      by_cases hl : l ≠ sz
      · rw [if_pos hl]
      · rw [if_neg hl]
        refine ih.1 ?_
        rcases h with ⟨a, ha, hne⟩
        rcases List.mem_cons.mp ha with rfl | ha2
        · exact absurd hne hl
        · exact ⟨a, ha2, hne⟩
    · intro h
      rw [partialH5Init, checkLens,
        if_neg (fun hll => hll (h l (List.mem_cons_self l rest)))]
      exact ih.2 (fun a ha => h a (List.mem_cons_of_mem l ha))

/-- Witness for C10: lengths `[5, 7]` (mismatch at the second dataset) raise
the `ValueError`. -/
theorem partialH5_equal_length_check_witness :
    (∃ l ∈ [(7 : ℕ)], l ≠ 5) ∧
    partialH5Init "data.h5" 5 [7] =
      .error (.valueError ("all datasets in " ++ "data.h5" ++ " must be the same length")) :=
  ⟨⟨7, by simp⟩,
    (partialH5_equal_length_check "data.h5" 5 [7]).1 ⟨7, by simp⟩⟩

end HeatSolver
